import Mathlib

/-!
# Store lifecycle of the boltdb-backed transactions datastore

Shallow embedding of `datastore/boltdb_transactions.go`.

The Go methods `CreateSchema`, `Configure`, `IsCreated` and `Close` are
translated statement by statement as state-passing functions.  The receiver
`*Transactions` becomes a value of `Transactions` that is threaded through;
everything that lives outside the receiver (database files, the engine's
handle objects, the calls issued to the libraries) is kept in a `World`.

The two libraries the file calls (`go.etcd.io/bbolt` and
`github.com/asdine/storm`) are not part of the repository.  They are
represented by a small reference model that follows bbolt's documented
contract: `Open` takes a file lock, `Update` runs a function in a write
transaction that is committed on `nil` and rolled back on error,
`CreateBucketIfNotExists` rejects the empty name and is a no-op on an
existing bucket, `Close` releases the lock.  Outcomes that only the
operating system decides (can the file be opened, can the accessor be
opened) are inputs, carried by `Env`.  Storage is taken to be reliable: a
commit or a close of an open handle does not fail for input/output reasons.
Opening the accessor runs storm's version check, which on a first open
commits the accessor's own root bucket `__storm_db`; that bucket is part of
the modelled file next to the coin buckets.  The unused `ctx` parameter and
the debug logging of `IsCreated` are left out.

Errors are identified with their messages, so `fmt.Errorf("create bucket: %s", err)`
is string concatenation.
-/

namespace Datastore

/-! ## Data model -/

/-- Key/value pairs stored inside one bucket. -/
abbrev Contents := List (String × String)

/-- The root buckets of one database file: bucket name and contents, kept in
the order of creation (bbolt iterates them by key; the statements below use
membership and lookup only). -/
abbrev Buckets := List (String × Contents)

/-- The fields of `bolt.Options` that influence the modelled behaviour. -/
structure Options where
  ReadOnly : Bool
  Timeout : Nat
deriving DecidableEq, Repr

/-- bbolt: `DefaultOptions`, used by `bolt.Open` when the options pointer is nil
(no timeout: wait for the file lock indefinitely; read-write). -/
def DefaultOptions : Options := { ReadOnly := false, Timeout := 0 }

/-- The engine's handle object behind a `*bolt.DB` pointer. -/
structure BoltDB where
  path : String
  opened : Bool
  readOnly : Bool
deriving DecidableEq, Repr

/-- The accessor object behind a `*storm.DB` pointer; `Bolt` is the handle it
was bound to with `storm.UseDB`. -/
structure StormDB where
  Bolt : Option Nat
deriving DecidableEq, Repr

/-- Library calls in program order: opens, closes, and the bucket creations
the datastore methods ask for. -/
inductive Event where
  | boltOpen (path : String)
  | stormOpen (path : String)
  | createBucketIfNotExists (name : String)
  | close
deriving DecidableEq, Repr

/-- Everything outside the receiver: the database files by path, the heap of
engine handle objects (a `*bolt.DB` is an index into it) and the log of
library calls. -/
structure World where
  files : String → Option Buckets
  handles : List BoltDB
  trace : List Event

/-- Inputs from outside the program.  `openErr`: whether the operating system
lets the database file at a path be opened.  `stormErr`: whether the accessor
can read its own records in that file (it cannot when a record does not
decode).  `none` means success, `some msg` is the error the library returns.
`stormVersion` and `stormCodec` are the values the accessor library writes
into its own bucket. -/
structure Env where
  openErr : String → Option String
  stormErr : String → Option String
  stormVersion : String
  stormCodec : String

/-- How a Go call ends: it returns, it panics, or it never returns. -/
inductive Outcome (α : Type) where
  | ret (a : α)
  | panic (msg : String)
  | hang

/-- The Go struct `Transactions`.  A nil pointer is `none`. -/
structure Transactions where
  DBPath : String
  DB : Option Nat
  storm : Option StormDB
  Coins : List String
  Options : Option Options
deriving DecidableEq, Repr

/-- The buckets of the database file at a path (none for a missing file). -/
def partitions (w : World) (path : String) : Buckets :=
  (w.files path).getD []

/-- The path of the file a handle pointer is bound to. -/
def handlePath (w : World) (db : Option Nat) : Option String :=
  match db with
  | none => none
  | some id => (w.handles[id]?).map BoltDB.path

/-! ## bbolt and storm reference model -/

/-- bbolt: `ErrBucketNameRequired`. -/
def ErrBucketNameRequired : String := "bucket name required"

/-- bbolt: `ErrDatabaseReadOnly`. -/
def ErrDatabaseReadOnly : String := "database is in read-only mode"

/-- bbolt: `ErrDatabaseNotOpen`. -/
def ErrDatabaseNotOpen : String := "database not open"

/-- bbolt: `ErrTimeout`. -/
def ErrTimeout : String := "timeout"

/-- Go runtime error raised when a method dereferences a nil receiver. -/
def nilPointerDereference : String :=
  "runtime error: invalid memory address or nil pointer dereference"

/-- bbolt takes an exclusive file lock for a read-write handle and a shared
one for a read-only handle; the lock is held until `Close`.  A new lock
conflicts with a held one unless both are shared. -/
def lockHeld (w : World) (path : String) (readOnly : Bool) : Bool :=
  w.handles.any (fun h => h.opened && h.path == path && !(h.readOnly && readOnly))

/-- bbolt: `Open(path, mode, options)`.  Opens (creating if absent) the file,
then acquires the file lock: with `Timeout = 0` it waits for the lock
without bound, otherwise it gives up with `ErrTimeout`.  Returns the new
handle pointer and the error. -/
def boltOpen (env : Env) (w : World) (path : String) (options : Option Options) :
    Outcome (World × Option Nat × Option String) :=
  let opts := options.getD DefaultOptions
  let w1 : World := { w with trace := w.trace ++ [Event.boltOpen path] }
  match env.openErr path with
  | some e => .ret (w1, none, some e)
  | none =>
    if lockHeld w1 path opts.ReadOnly then
      if opts.Timeout = 0 then .hang else .ret (w1, none, some ErrTimeout)
    else
      .ret ({ w1 with
                files := fun p => if p = path then some (partitions w1 path) else w1.files p
                handles := w1.handles ++ [{ path := path, opened := true, readOnly := opts.ReadOnly }] },
            some w1.handles.length, none)

/-- A write transaction: a private copy of the buckets plus the call log. -/
structure Tx where
  buckets : Buckets
  trace : List Event

/-- bbolt: `tx.CreateBucketIfNotExists(name)`.  Fails on an empty name, leaves
an existing bucket alone, otherwise adds an empty bucket. -/
def Tx.CreateBucketIfNotExists (tx : Tx) (name : String) : Tx × Option String :=
  let tx1 : Tx := { tx with trace := tx.trace ++ [Event.createBucketIfNotExists name] }
  if name = "" then (tx1, some ErrBucketNameRequired)
  else if (tx1.buckets.lookup name).isSome then (tx1, none)
  else ({ tx1 with buckets := tx1.buckets ++ [(name, [])] }, none)

/-- bbolt: `db.Update(fn)`.  Begins a write transaction (refused on a
read-only or closed handle), runs `fn`, rolls back when `fn` returns an
error and commits otherwise. -/
def dbUpdate (w : World) (db : Option Nat) (fn : Tx → Tx × Option String) :
    Outcome (World × Option String) :=
  match db with
  | none => .panic nilPointerDereference
  | some id =>
    match w.handles[id]? with
    | none => .panic nilPointerDereference
    | some h =>
      if h.readOnly then .ret (w, some ErrDatabaseReadOnly)
      else if !h.opened then .ret (w, some ErrDatabaseNotOpen)
      else
        match fn { buckets := partitions w h.path, trace := w.trace } with
        | (tx, some err) => .ret ({ w with trace := tx.trace }, some err)
        | (tx, none) =>
          .ret ({ w with
                    files := fun p => if p = h.path then some tx.buckets else w.files p
                    trace := tx.trace }, none)

/-- storm: `dbinfo`, the root bucket in which the accessor keeps its own
records. -/
def dbinfo : String := "__storm_db"

/-- storm: name of the metadata bucket nested in every bucket the accessor
writes; it is represented by one entry holding the codec name. -/
def stormMetadata : String := "__storm_metadata"

/-- bbolt: `bucket.Put(key, value)` on the contents of one bucket. -/
def putKey (c : Contents) (k v : String) : Contents :=
  if (c.lookup k).isSome then c.map (fun e => if e.1 = k then (k, v) else e)
  else c ++ [(k, v)]

/-- storm: the records `node.set` leaves in the accessor bucket: the codec
metadata (kept when already there) and the version record. -/
def stormRecords (env : Env) (c : Contents) : Contents :=
  putKey (if (c.lookup stormMetadata).isSome then c else c ++ [(stormMetadata, env.stormCodec)])
    "version" env.stormVersion

/-- storm: the function `Set(dbinfo, "version", Version)` runs inside `Update`:
it creates the accessor bucket if absent and stores the records in it.  The
call is made by the accessor, not by the datastore, and is not logged. -/
def stormSetVersion (env : Env) (tx : Tx) : Tx × Option String :=
  if (tx.buckets.lookup dbinfo).isSome then
    ({ tx with
        buckets := tx.buckets.map
          (fun e => if e.1 = dbinfo then (e.1, stormRecords env e.2) else e) }, none)
  else ({ tx with buckets := tx.buckets ++ [(dbinfo, stormRecords env [])] }, none)

/-- storm: `checkVersion`.  Reads the version record in a read transaction
(refused on a closed handle) and, when there is none, writes it with
`Set`, that is inside `db.Update`. -/
def checkVersion (env : Env) (w : World) (db : Option Nat) : Outcome (World × Option String) :=
  match db with
  | none => .panic nilPointerDereference
  | some id =>
    match w.handles[id]? with
    | none => .panic nilPointerDereference
    | some h =>
      if !h.opened then .ret (w, some ErrDatabaseNotOpen)
      else if (((partitions w h.path).lookup dbinfo).bind (fun c => c.lookup "version")).getD ""
          = "" then
        dbUpdate w db (stormSetVersion env)
      else .ret (w, none)

/-- storm: the part of `Open` after the handle is known: read the accessor
records, run `checkVersion`, return the accessor bound to the handle. -/
def stormBind (env : Env) (w : World) (path : String) (db : Option Nat) :
    Outcome (World × Option StormDB × Option String) :=
  match env.stormErr path with
  | some e => .ret (w, none, some e)
  | none =>
    match checkVersion env w db with
    | .ret (w1, some e) => .ret (w1, none, some e)
    | .ret (w1, none) => .ret (w1, some { Bolt := db }, none)
    | .panic msg => .panic msg
    | .hang => .hang

/-- storm: `Open(path, storm.UseDB(db))`.  With a handle given by `UseDB` the
accessor wraps it instead of opening the file; with a nil handle it opens
the file itself with a one second lock timeout.  Either way it then runs
the version check. -/
def stormOpen (env : Env) (w : World) (path : String) (db : Option Nat) :
    Outcome (World × Option StormDB × Option String) :=
  let w1 : World := { w with trace := w.trace ++ [Event.stormOpen path] }
  match db with
  | some id => stormBind env w1 path (some id)
  | none =>
    match boltOpen env w1 path (some { ReadOnly := false, Timeout := 1 }) with
    | .ret (w2, _, some e) => .ret (w2, none, some e)
    | .ret (w2, db2, none) => stormBind env w2 path db2
    | .panic msg => .panic msg
    | .hang => .hang

/-- bbolt: `db.Close()`.  The method locks a mutex stored in the receiver, so
a nil receiver panics; otherwise the handle is closed and its file lock
released. -/
def dbClose (w : World) (db : Option Nat) : Outcome (World × Option String) :=
  match db with
  | none => .panic nilPointerDereference
  | some id =>
    match w.handles[id]? with
    | none => .panic nilPointerDereference
    | some h =>
      .ret ({ w with
                handles := w.handles.set id { h with opened := false }
                trace := w.trace ++ [Event.close] }, none)

/-! ## The datastore methods -/

/-- The function literal passed to `Update` in `CreateSchema` (lines 47-53). -/
def createSchemaFn (coin : String) (tx : Tx) : Tx × Option String :=
  match tx.CreateBucketIfNotExists coin with
  | (tx1, some err) => (tx1, some ("create bucket: " ++ err))
  | (tx1, none) => (tx1, none)

/-- The `for _, coin := range coins` loop of `CreateSchema` (lines 46-58): one
`Update` per coin, returning at the first error. -/
def createSchemaLoop (w : World) (db : Option Nat) : List String → Outcome (World × Option String)
  | [] => .ret (w, none)
  | coin :: coins =>
    match dbUpdate w db (createSchemaFn coin) with
    | .ret (w1, some err) => .ret (w1, some err)
    | .ret (w1, none) => createSchemaLoop w1 db coins
    | .panic msg => .panic msg
    | .hang => .hang

/-- `Transactions.CreateSchema` (lines 35-61). -/
def CreateSchema (env : Env) (w : World) (b : Transactions) (coins : List String) :
    Outcome (World × Transactions × Option String) :=
  match boltOpen env w b.DBPath b.Options with
  | .panic msg => .panic msg
  | .hang => .hang
  | .ret (w1, db, some err) => .ret (w1, { b with DB := db }, some err)
  | .ret (w1, db, none) =>
    match stormOpen env w1 b.DBPath db with
    | .panic msg => .panic msg
    | .hang => .hang
    | .ret (w2, st, some err) => .ret (w2, { b with DB := db, storm := st }, some err)
    | .ret (w2, st, none) =>
      match createSchemaLoop w2 db coins with
      | .ret (w3, err) => .ret (w3, { b with DB := db, storm := st }, err)
      | .panic msg => .panic msg
      | .hang => .hang

/-- The loop inside the function literal of `Configure` (lines 82-88). -/
def configureFn : List String → Tx → Tx × Option String
  | [], tx => (tx, none)
  | coin :: coins, tx =>
    match tx.CreateBucketIfNotExists coin with
    | (tx1, some err) => (tx1, some ("error creating bucket: " ++ err))
    | (tx1, none) => configureFn coins tx1

/-- `if b.DB == nil` block of `Configure` (lines 65-70). -/
def configureDB (env : Env) (w : World) (b : Transactions) :
    Outcome (World × Transactions × Option String) :=
  match b.DB with
  | some _ => .ret (w, b, none)
  | none =>
    match boltOpen env w b.DBPath b.Options with
    | .ret (w1, db, err) => .ret (w1, { b with DB := db }, err)
    | .panic msg => .panic msg
    | .hang => .hang

/-- `if b.storm == nil` block of `Configure` (lines 72-77). -/
def configureStorm (env : Env) (w : World) (b : Transactions) :
    Outcome (World × Transactions × Option String) :=
  match b.storm with
  | some _ => .ret (w, b, none)
  | none =>
    match stormOpen env w b.DBPath b.DB with
    | .ret (w1, st, err) => .ret (w1, { b with storm := st }, err)
    | .panic msg => .panic msg
    | .hang => .hang

/-- `Transactions.Configure` (lines 64-92). -/
def Configure (env : Env) (w : World) (b : Transactions) (coins : List String) :
    Outcome (World × Transactions × Option String) :=
  match configureDB env w b with
  | .panic msg => .panic msg
  | .hang => .hang
  | .ret (w1, b1, some err) => .ret (w1, b1, some err)
  | .ret (w1, b1, none) =>
    match configureStorm env w1 b1 with
    | .panic msg => .panic msg
    | .hang => .hang
    | .ret (w2, b2, some err) => .ret (w2, b2, some err)
    | .ret (w2, b2, none) =>
      match dbUpdate w2 b2.DB (configureFn coins) with
      | .ret (w3, err) => .ret (w3, b2, err)
      | .panic msg => .panic msg
      | .hang => .hang

/-- `Transactions.IsCreated` (lines 95-110).  The helper `fileExists` and the
constant `boltdbPathTransactions` are defined elsewhere in the package and
are taken as parameters.  Returns the updated receiver and the result. -/
def IsCreated (fileExists : String → Bool × Option String) (boltdbPathTransactions : String)
    (b : Transactions) (_coins : List String) : Transactions × Bool :=
  let dbpath := b.DBPath ++ "/" ++ boltdbPathTransactions
  let (ok, _err) := fileExists dbpath
  ({ b with DBPath := dbpath }, ok)

/-- `Transactions.Close` (lines 113-115). -/
def Close (w : World) (t : Transactions) : Outcome (World × Option String) :=
  dbClose w t.DB

/-! ## Observations and auxiliary definitions -/

/-- The names of the buckets of a database file. -/
def bucketNames (bs : Buckets) : List String := bs.map Prod.fst

/-- bbolt: `db.Begin(true)` succeeds on this handle pointer, that is the
handle is open and was not opened read-only. -/
def writable (w : World) (db : Option Nat) : Bool :=
  match db with
  | none => false
  | some id =>
    match w.handles[id]? with
    | none => false
    | some h => h.opened && !h.readOnly

/-- An event is a database open or an accessor open. -/
def Event.isOpen : Event → Bool
  | .boltOpen _ => true
  | .stormOpen _ => true
  | _ => false

/-- The string `s` written `n` times in a row. -/
def copies (s : String) : Nat → String
  | 0 => ""
  | n + 1 => s ++ copies s n

/-- Consecutive `IsCreated` calls on the same receiver, one per coin list;
returns the final receiver and the results in call order. -/
def IsCreatedRepeat (fileExists : String → Bool × Option String) (boltdbPathTransactions : String)
    (b : Transactions) : List (List String) → Transactions × List Bool
  | [] => (b, [])
  | coins :: rest =>
    match IsCreated fileExists boltdbPathTransactions b coins with
    | (b1, ok) =>
      match IsCreatedRepeat fileExists boltdbPathTransactions b1 rest with
      | (b2, oks) => (b2, ok :: oks)

/-- What the operating system answers when a path is probed: the file is
there, it is not there, or the probe itself fails with a message.  In the
last case `reported` is the boolean the helper hands back with the error. -/
inductive Stat where
  | present
  | absent
  | failed (reported : Bool) (msg : String)
deriving DecidableEq, Repr

/-- A file-system state, as far as existence probes can see it. -/
abbrev FileSystem := String → Stat

/-- Modelled from the spec: the package helper `fileExists(path) (bool, error)`
is not in the source file.  The spec says `IsCreated` "checks for its
existence on the file system", "returns whether the file exists", and that on a
check error "existence is reported based on whatever the check call produced". -/
def fileExists (fs : FileSystem) (path : String) : Bool × Option String :=
  match fs path with
  | .present => (true, none)
  | .absent => (false, none)
  | .failed reported msg => (reported, some msg)

/-- The world after a committed write transaction on the file at `p`. -/
def committed (w : World) (p : String) (tx : Tx) : World :=
  { w with files := fun q => if q = p then some tx.buckets else w.files q, trace := tx.trace }

/-- Buckets `bs1` are `bs` with the names in `added` made present and nothing removed or altered. -/
def Extends (bs bs1 : Buckets) (added : List String) : Prop :=
  (∀ n, n ∈ bucketNames bs1 ↔ n ∈ bucketNames bs ∨ n ∈ added) ∧
  (∀ n v, bs.lookup n = some v → bs1.lookup n = some v)

/-- The world after `bolt.Open` on the store path (the given world if the
call does not return). -/
def afterOpen (env : Env) (w : World) (b : Transactions) : World :=
  match boltOpen env w b.DBPath b.Options with
  | .ret (w1, _, _) => w1
  | _ => w

/-- The world after `storm.Open` on the store path with the handle of the
receiver (the given world if the call does not return). -/
def afterStormOpen (env : Env) (w : World) (b : Transactions) : World :=
  match stormOpen env w b.DBPath b.DB with
  | .ret (w1, _, _) => w1
  | _ => w

/-- The world and receiver after `CreateSchema` (the given ones if the call
does not return). -/
def afterCreateSchema (env : Env) (w : World) (b : Transactions) (coins : List String) :
    World × Transactions :=
  match CreateSchema env w b coins with
  | .ret (w1, b1, _) => (w1, b1)
  | _ => (w, b)

/-- The world and receiver after `Configure` (the given ones if the call does
not return). -/
def afterConfigure (env : Env) (w : World) (b : Transactions) (coins : List String) :
    World × Transactions :=
  match Configure env w b coins with
  | .ret (w1, b1, _) => (w1, b1)
  | _ => (w, b)

/-! ## Concrete stores used to exercise the model -/

/-- An environment in which every file and accessor can be opened. -/
def permissiveEnv : Env :=
  { openErr := fun _ => none, stormErr := fun _ => none,
    stormVersion := "2.0.0", stormCodec := "json" }

/-- An environment in which opening the database file is refused. -/
def deniedEnv : Env :=
  { openErr := fun _ => some "open db: permission denied", stormErr := fun _ => none,
    stormVersion := "2.0.0", stormCodec := "json" }

/-- A world without database files and without handles. -/
def emptyWorld : World := { files := fun _ => none, handles := [], trace := [] }

/-- An unopened store at path `db` with a one-unit lock timeout. -/
def freshStore : Transactions :=
  { DBPath := "db", DB := none, storm := none, Coins := [],
    Options := some { ReadOnly := false, Timeout := 1 } }

/-- An unopened store at path `db` with nil options (bbolt defaults). -/
def defaultStore : Transactions :=
  { DBPath := "db", DB := none, storm := none, Coins := [], Options := none }

/-- A file system where `db/transactions.db` exists, `var/transactions.db`
cannot be probed and nothing else exists. -/
def sampleFS : FileSystem := fun p =>
  if p = "db/transactions.db" then .present
  else if p = "var/transactions.db" then .failed false "stat: permission denied"
  else .absent

/-- The empty world after the database file of `freshStore` was opened. -/
def openedWorld : World := afterOpen permissiveEnv emptyWorld freshStore

/-- The empty world after a refused open of the database file. -/
def deniedWorld : World := afterOpen deniedEnv emptyWorld freshStore

/-- The receiver `freshStore` once its handle is set. -/
def openedStore : Transactions := { freshStore with DB := some 0 }

/-- The receiver once handle and accessor are set. -/
def accessorStore : Transactions := { openedStore with storm := some { Bolt := some 0 } }

/-- State after `CreateSchema` with BTC and ETH on the fresh store. -/
def createdBE : World × Transactions :=
  afterCreateSchema permissiveEnv emptyWorld freshStore ["BTC", "ETH"]

/-- State after `Configure` with BTC and ETH on the fresh store. -/
def configuredBE : World × Transactions :=
  afterConfigure permissiveEnv emptyWorld freshStore ["BTC", "ETH"]

/-- State after `Configure` with BTC and LTC on top of `createdBE`. -/
def configuredBL : World × Transactions :=
  afterConfigure permissiveEnv createdBE.1 createdBE.2 ["BTC", "LTC"]

/-- A world whose database file `db` already holds a BTC bucket with one
record; no handle is open. -/
def legacyWorld : World :=
  { files := fun p => if p = "db" then some [("BTC", [("txid-1", "raw-1")])] else none,
    handles := [], trace := [] }

/-- The legacy world after the database file was opened. -/
def legacyOpened : World := afterOpen permissiveEnv legacyWorld freshStore

/-- The legacy world after the accessor was opened as well. -/
def legacyAccessor : World := afterStormOpen permissiveEnv legacyOpened openedStore

/-- The empty world after the database file and the accessor were opened. -/
def accessorWorld : World := afterStormOpen permissiveEnv openedWorld openedStore

/-- A world whose database file `db` was set up earlier: it holds the
accessor bucket with its records and a BTC bucket; no handle is open. -/
def versionedWorld : World :=
  { files := fun p =>
      if p = "db" then
        some [("BTC", [("txid-1", "raw-1")]),
              ("__storm_db", [("__storm_metadata", "json"), ("version", "2.0.0")])]
      else none,
    handles := [], trace := [] }

/-- An unopened store at path `db` whose options ask for a read-only handle. -/
def readOnlyStore : Transactions :=
  { DBPath := "db", DB := none, storm := none, Coins := [],
    Options := some { ReadOnly := true, Timeout := 1 } }

/-- A store rooted at `tmp`, where `sampleFS` has no database file. -/
def tmpStore : Transactions := { freshStore with DBPath := "tmp" }

/-- A store rooted at `var`, where `sampleFS` cannot be probed. -/
def varStore : Transactions := { freshStore with DBPath := "var" }


/-- State after `Configure` with LTC and the empty name on the read-only store
over the versioned file. -/
def readOnlyConfigured : World × Transactions :=
  afterConfigure permissiveEnv versionedWorld readOnlyStore ["LTC", ""]

/-- State after `CreateSchema` with LTC and the empty name on the read-only
store over the versioned file. -/
def readOnlyCreated : World × Transactions :=
  afterCreateSchema permissiveEnv versionedWorld readOnlyStore ["LTC", ""]

/-- State after `Configure` on the fresh store with a coin named like the
accessor bucket, followed by the empty name. -/
def configuredStormCoin : World × Transactions :=
  afterConfigure permissiveEnv emptyWorld freshStore ["__storm_db", ""]

/-! ## Buckets and single bucket creation -/

theorem lookup_isSome_iff (bs : Buckets) (n : String) :
    (bs.lookup n).isSome = true ↔ n ∈ bucketNames bs := by
  induction bs with
  | nil => simp [bucketNames]
  | cons e bs ih =>
    obtain ⟨k, v⟩ := e
    by_cases h : n = k
    · subst h; simp [List.lookup, bucketNames]
    · have h2 : (n == k) = false := by simpa using h
      simp [List.lookup, h2, bucketNames, h] at ih ⊢

theorem lookup_append_some (bs cs : Buckets) (n : String) (c : Contents)
    (h : bs.lookup n = some c) : (bs ++ cs).lookup n = some c := by
  induction bs with
  | nil => simp at h
  | cons e bs ih =>
    obtain ⟨k, v⟩ := e
    by_cases hk : n = k
    · subst hk; simpa [List.lookup] using h
    · have h2 : (n == k) = false := by simpa using hk
      simp only [List.cons_append, List.lookup, h2] at h ⊢
      exact ih h

/-- Creating a bucket with a non-empty name succeeds, logs the call, adds at
most that name and keeps every stored bucket as it was. -/
theorem create_nonempty (tx : Tx) (c : String) (hc : c ≠ "") :
    ∃ tx1, tx.CreateBucketIfNotExists c = (tx1, none) ∧
      tx1.trace = tx.trace ++ [Event.createBucketIfNotExists c] ∧
      (∀ n, n ∈ bucketNames tx1.buckets ↔ n ∈ bucketNames tx.buckets ∨ n = c) ∧
      (∀ n v, tx.buckets.lookup n = some v → tx1.buckets.lookup n = some v) ∧
      (c ∈ bucketNames tx.buckets → tx1.buckets = tx.buckets) := by
  unfold Tx.CreateBucketIfNotExists
  by_cases hex : (tx.buckets.lookup c).isSome = true
  · have hmem := (lookup_isSome_iff tx.buckets c).1 hex
    refine ⟨_, by simp [hc, hex]; rfl, rfl, ?_, ?_, ?_⟩
    · intro n; constructor
      · intro h; exact Or.inl h
      · rintro (h | h)
        · exact h
        · subst h; exact hmem
    · intro n v h; exact h
    · intro _; rfl
  · have hnot : c ∉ bucketNames tx.buckets := fun h => hex ((lookup_isSome_iff tx.buckets c).2 h)
    refine ⟨_, by simp [hc, hex]; rfl, rfl, ?_, ?_, ?_⟩
    · intro n; simp [bucketNames]
    · intro n v h; exact lookup_append_some _ _ _ _ h
    · intro h; exact absurd h hnot

/-- Creating a bucket with the empty name fails and leaves the buckets alone. -/
theorem create_empty (tx : Tx) :
    tx.CreateBucketIfNotExists "" =
      ({ tx with trace := tx.trace ++ [Event.createBucketIfNotExists ""] },
        some ErrBucketNameRequired) := by
  simp [Tx.CreateBucketIfNotExists]

/-! ## Write transactions, the two loops and opening -/


theorem writable_handlePath (w : World) (db : Option Nat) (hw : writable w db = true) :
    ∃ p, handlePath w db = some p := by
  unfold writable at hw
  unfold handlePath
  cases db with
  | none => simp at hw
  | some id =>
    cases hh : w.handles[id]? with
    | none => simp [hh] at hw
    | some h => exact ⟨h.path, by simp only [hh]; rfl⟩

theorem writable_congr (w w1 : World) (db : Option Nat) (h : w1.handles = w.handles) :
    writable w1 db = writable w db := by
  unfold writable; rw [h]

theorem handlePath_congr (w w1 : World) (db : Option Nat) (h : w1.handles = w.handles) :
    handlePath w1 db = handlePath w db := by
  unfold handlePath; rw [h]

theorem dbUpdate_commit (w : World) (db : Option Nat) (fn : Tx → Tx × Option String)
    (p : String) (tx : Tx) (hw : writable w db = true) (hp : handlePath w db = some p)
    (hfn : fn { buckets := partitions w p, trace := w.trace } = (tx, none)) :
    dbUpdate w db fn = .ret (committed w p tx, none) := by
  unfold writable at hw
  unfold handlePath at hp
  unfold dbUpdate
  cases db with
  | none => simp at hw
  | some id =>
    cases hh : w.handles[id]? with
    | none => simp only [hh] at hw; simp at hw
    | some h =>
      simp only [hh] at hw hp ⊢
      simp at hw hp
      subst hp
      simp [hw.1, hw.2, hfn, committed]

theorem dbUpdate_rollback (w : World) (db : Option Nat) (fn : Tx → Tx × Option String)
    (p : String) (tx : Tx) (e : String) (hw : writable w db = true) (hp : handlePath w db = some p)
    (hfn : fn { buckets := partitions w p, trace := w.trace } = (tx, some e)) :
    dbUpdate w db fn = .ret ({ w with trace := tx.trace }, some e) := by
  unfold writable at hw
  unfold handlePath at hp
  unfold dbUpdate
  cases db with
  | none => simp at hw
  | some id =>
    cases hh : w.handles[id]? with
    | none => simp only [hh] at hw; simp at hw
    | some h =>
      simp only [hh] at hw hp ⊢
      simp at hw hp
      subst hp
      simp [hw.1, hw.2, hfn]

theorem dbUpdate_handles (w w1 : World) (db : Option Nat) (fn : Tx → Tx × Option String)
    (e : Option String) (h : dbUpdate w db fn = .ret (w1, e)) : w1.handles = w.handles := by
  unfold dbUpdate at h
  cases db with
  | none => simp at h
  | some id =>
    cases hh : w.handles[id]? with
    | none => simp [hh] at h
    | some hd =>
      simp only [hh] at h
      split at h
      · simp at h; rw [← h.1]
      · split at h
        · simp at h; rw [← h.1]
        · split at h
          · simp at h; rw [← h.1]
          · simp at h; rw [← h.1]

theorem dbUpdate_ok_inv (w w1 : World) (db : Option Nat) (fn : Tx → Tx × Option String)
    (h : dbUpdate w db fn = .ret (w1, none)) :
    writable w db = true ∧ ∃ p tx, handlePath w db = some p ∧
      fn { buckets := partitions w p, trace := w.trace } = (tx, none) ∧ w1 = committed w p tx := by
  unfold dbUpdate at h
  cases db with
  | none => simp at h
  | some id =>
    cases hh : w.handles[id]? with
    | none => simp [hh] at h
    | some hd =>
      simp only [hh] at h
      split at h
      · simp at h
      · split at h
        · simp at h
        · rename_i hro hop
          split at h
          · simp at h
          · rename_i tx hfn
            simp at h hro hop
            refine ⟨by simp only [writable, hh]; simp [hro, hop], hd.path, tx, by simp only [handlePath, hh]; rfl, hfn, ?_⟩
            rw [← h]; rfl


theorem Extends.refl (bs : Buckets) : Extends bs bs [] := by
  constructor
  · intro n; simp
  · intro n v h; exact h

theorem Extends.trans {bs bs1 bs2 : Buckets} {a a2 : List String}
    (h1 : Extends bs bs1 a) (h2 : Extends bs1 bs2 a2) : Extends bs bs2 (a ++ a2) := by
  constructor
  · intro n
    rw [h2.1 n, h1.1 n, List.mem_append, or_assoc]
  · intro n v h
    exact h2.2 n v (h1.2 n v h)

theorem partitions_committed_self (w : World) (p : String) (tx : Tx) :
    partitions (committed w p tx) p = tx.buckets := by
  simp [partitions, committed]

theorem partitions_committed_other (w : World) (p q : String) (tx : Tx) (h : q ≠ p) :
    partitions (committed w p tx) q = partitions w q := by
  simp [partitions, committed, h]

theorem createSchemaFn_nonempty (tx : Tx) (c : String) (hc : c ≠ "") :
    ∃ tx1, createSchemaFn c tx = (tx1, none) ∧
      tx1.trace = tx.trace ++ [Event.createBucketIfNotExists c] ∧
      Extends tx.buckets tx1.buckets [c] := by
  obtain ⟨tx1, h1, h2, h3, h4, -⟩ := create_nonempty tx c hc
  refine ⟨tx1, by simp [createSchemaFn, h1], h2, ?_, h4⟩
  intro n; rw [h3 n]; simp

theorem createSchemaFn_empty (tx : Tx) :
    createSchemaFn "" tx =
      ({ tx with trace := tx.trace ++ [Event.createBucketIfNotExists ""] },
        some ("create bucket: " ++ ErrBucketNameRequired)) := by
  simp [createSchemaFn, create_empty]

theorem configureFn_ok (coins : List String) (tx : Tx) (h : ∀ c ∈ coins, c ≠ "") :
    ∃ tx1, configureFn coins tx = (tx1, none) ∧
      tx1.trace = tx.trace ++ coins.map Event.createBucketIfNotExists ∧
      Extends tx.buckets tx1.buckets coins := by
  induction coins generalizing tx with
  | nil => exact ⟨tx, rfl, by simp, Extends.refl _⟩
  | cons c cs ih =>
    have hc : c ≠ "" := h c (List.mem_cons_self _ _)
    obtain ⟨tx1, h1, h2, h3, h4, -⟩ := create_nonempty tx c hc
    obtain ⟨tx2, k1, k2, k3⟩ := ih tx1 (fun d hd => h d (List.mem_cons_of_mem _ hd))
    refine ⟨tx2, by simp [configureFn, h1, k1], by simp [k2, h2], ?_⟩
    have e1 : Extends tx.buckets tx1.buckets [c] := ⟨fun n => by rw [h3 n]; simp, h4⟩
    exact Extends.trans e1 k3

theorem configureFn_fails (coins : List String) (tx : Tx) (h : "" ∈ coins) :
    ∃ tx1, configureFn coins tx =
      (tx1, some ("error creating bucket: " ++ ErrBucketNameRequired)) := by
  induction coins generalizing tx with
  | nil => simp at h
  | cons c cs ih =>
    by_cases hc : c = ""
    · subst hc
      exact ⟨{ tx with trace := tx.trace ++ [Event.createBucketIfNotExists ""] },
        by simp [configureFn, create_empty]⟩
    · have hmem : "" ∈ cs := by
        rcases List.mem_cons.1 h with h0 | h0
        · exact absurd h0.symm hc
        · exact h0
      obtain ⟨tx1, h1, -⟩ := create_nonempty tx c hc
      obtain ⟨tx2, h2⟩ := ih tx1 hmem
      exact ⟨tx2, by simp [configureFn, h1, h2]⟩

theorem configureFn_trace (coins : List String) (tx : Tx) :
    ∃ evs, (configureFn coins tx).1.trace = tx.trace ++ evs ∧ ∀ e ∈ evs, e.isOpen = false := by
  induction coins generalizing tx with
  | nil => exact ⟨[], by simp [configureFn], by simp⟩
  | cons c cs ih =>
    by_cases hc : c = ""
    · subst hc
      exact ⟨[Event.createBucketIfNotExists ""], by simp [configureFn, create_empty],
        by simp [Event.isOpen]⟩
    · obtain ⟨tx1, h1, h2, -⟩ := create_nonempty tx c hc
      obtain ⟨evs, k1, k2⟩ := ih tx1
      refine ⟨Event.createBucketIfNotExists c :: evs, ?_, ?_⟩
      · simp [configureFn, h1, k1, h2]
      · intro e he
        rcases List.mem_cons.1 he with h0 | h0
        · subst h0; rfl
        · exact k2 e h0


theorem createSchemaLoop_ok (coins : List String) (w : World) (db : Option Nat) (p : String)
    (hw : writable w db = true) (hp : handlePath w db = some p) (h : ∀ c ∈ coins, c ≠ "") :
    ∃ w1, createSchemaLoop w db coins = .ret (w1, none) ∧ w1.handles = w.handles ∧
      w1.trace = w.trace ++ coins.map Event.createBucketIfNotExists ∧
      Extends (partitions w p) (partitions w1 p) coins ∧
      (∀ q, q ≠ p → partitions w1 q = partitions w q) := by
  induction coins generalizing w with
  | nil => exact ⟨w, rfl, rfl, by simp, Extends.refl _, fun _ _ => rfl⟩
  | cons c cs ih =>
    have hc : c ≠ "" := h c (List.mem_cons_self _ _)
    obtain ⟨tx1, h1, h2, h3⟩ :=
      createSchemaFn_nonempty { buckets := partitions w p, trace := w.trace } c hc
    have hupd := dbUpdate_commit w db (createSchemaFn c) p tx1 hw hp h1
    have hw1 : writable (committed w p tx1) db = true := by
      rw [writable_congr w (committed w p tx1) db rfl]; exact hw
    have hp1 : handlePath (committed w p tx1) db = some p := by
      rw [handlePath_congr w (committed w p tx1) db rfl]; exact hp
    obtain ⟨w2, k1, k2, k3, k4, k5⟩ :=
      ih (committed w p tx1) hw1 hp1 (fun d hd => h d (List.mem_cons_of_mem _ hd))
    refine ⟨w2, by simp [createSchemaLoop, hupd, k1], by rw [k2]; rfl, ?_, ?_, ?_⟩
    · rw [k3]; simp [committed, h2]
    · rw [partitions_committed_self] at k4
      exact Extends.trans h3 k4
    · intro q hq
      rw [k5 q hq, partitions_committed_other w p q tx1 hq]

theorem createSchemaLoop_fail (pre post : List String) (w : World) (db : Option Nat) (p : String)
    (hw : writable w db = true) (hp : handlePath w db = some p) (h : ∀ c ∈ pre, c ≠ "") :
    ∃ w1, createSchemaLoop w db (pre ++ "" :: post) =
        .ret (w1, some ("create bucket: " ++ ErrBucketNameRequired)) ∧
      w1.handles = w.handles ∧
      w1.trace = w.trace ++ (pre ++ [""]).map Event.createBucketIfNotExists ∧
      Extends (partitions w p) (partitions w1 p) pre ∧
      (∀ q, q ≠ p → partitions w1 q = partitions w q) := by
  induction pre generalizing w with
  | nil =>
    have hupd := dbUpdate_rollback w db (createSchemaFn "") p _ _ hw hp (createSchemaFn_empty _)
    exact ⟨{ w with trace := w.trace ++ [Event.createBucketIfNotExists ""] },
      by simp [createSchemaLoop, hupd], rfl, by simp, Extends.refl _, fun _ _ => rfl⟩
  | cons c cs ih =>
    have hc : c ≠ "" := h c (List.mem_cons_self _ _)
    obtain ⟨tx1, h1, h2, h3⟩ :=
      createSchemaFn_nonempty { buckets := partitions w p, trace := w.trace } c hc
    have hupd := dbUpdate_commit w db (createSchemaFn c) p tx1 hw hp h1
    have hw1 : writable (committed w p tx1) db = true := by
      rw [writable_congr w (committed w p tx1) db rfl]; exact hw
    have hp1 : handlePath (committed w p tx1) db = some p := by
      rw [handlePath_congr w (committed w p tx1) db rfl]; exact hp
    obtain ⟨w2, k1, k2, k3, k4, k5⟩ :=
      ih (committed w p tx1) hw1 hp1 (fun d hd => h d (List.mem_cons_of_mem _ hd))
    refine ⟨w2, by simp [createSchemaLoop, hupd, k1], by rw [k2]; rfl, ?_, ?_, ?_⟩
    · rw [k3]; simp [committed, h2]
    · rw [partitions_committed_self] at k4
      exact Extends.trans h3 k4
    · intro q hq
      rw [k5 q hq, partitions_committed_other w p q tx1 hq]

theorem createSchemaLoop_ok_inv (coins : List String) (w w1 : World) (db : Option Nat)
    (h : createSchemaLoop w db coins = .ret (w1, none)) :
    (∀ c ∈ coins, c ≠ "") ∧ (coins ≠ [] → writable w db = true) := by
  induction coins generalizing w with
  | nil => simp
  | cons c cs ih =>
    rw [createSchemaLoop] at h
    generalize hupd : dbUpdate w db (createSchemaFn c) = r at h
    rcases r with ⟨w2, _ | err⟩ | _ | _
    · obtain ⟨hw, p, tx, hp, hfn, -⟩ := dbUpdate_ok_inv w w2 db _ hupd
      have hc : c ≠ "" := by
        intro h0; subst h0
        rw [createSchemaFn_empty] at hfn
        simp at hfn
      have := ih w2 h
      refine ⟨?_, fun _ => hw⟩
      intro d hd
      rcases List.mem_cons.1 hd with h0 | h0
      · subst h0; exact hc
      · exact this.1 d h0
    · simp at h
    · simp at h
    · simp at h

theorem boltOpen_ok_inv (env : Env) (w w1 : World) (path : String) (o : Option Options)
    (db : Option Nat) (h : boltOpen env w path o = .ret (w1, db, none)) :
    db = some w.handles.length ∧
    w1.handles = w.handles ++
      [{ path := path, opened := true, readOnly := (o.getD DefaultOptions).ReadOnly }] ∧
    w1.trace = w.trace ++ [Event.boltOpen path] ∧
    (∀ q, partitions w1 q = partitions w q) ∧
    handlePath w1 db = some path ∧
    writable w1 db = !(o.getD DefaultOptions).ReadOnly := by
  unfold boltOpen at h
  simp only at h
  split at h
  · simp at h
  · split at h
    · split at h <;> simp at h
    · simp only [Outcome.ret.injEq, Prod.mk.injEq, and_true] at h
      obtain ⟨hw, hdb⟩ := h
      subst hw; subst hdb
      refine ⟨rfl, rfl, rfl, ?_, ?_, ?_⟩
      · intro q
        by_cases hq : q = path
        · subst hq; simp [partitions]
        · simp [partitions, hq]
      · simp [handlePath]
      · simp [writable]

theorem boltOpen_err_inv (env : Env) (w w1 : World) (path : String) (o : Option Options)
    (db : Option Nat) (e : String) (h : boltOpen env w path o = .ret (w1, db, some e)) :
    db = none ∧ w1 = { w with trace := w.trace ++ [Event.boltOpen path] } := by
  unfold boltOpen at h
  simp only at h
  split at h
  · simp at h; exact ⟨h.2.1.symm, h.1.symm⟩
  · split at h
    · split at h
      · simp at h
      · simp at h; exact ⟨h.2.1.symm, h.1.symm⟩
    · simp at h


/-! ## Opening the accessor -/

theorem lookup_map_other (bs : Buckets) (k n : String) (f : Contents → Contents) (h : n ≠ k) :
    (bs.map (fun e => if e.1 = k then (e.1, f e.2) else e)).lookup n = bs.lookup n := by
  induction bs with
  | nil => rfl
  | cons e bs ih =>
    obtain ⟨a, v⟩ := e
    by_cases ha : a = k
    · have e1 : (if (a, v).1 = k then ((a, v).1, f (a, v).2) else (a, v))
          = (a, f v) := by simp [ha]
      have h2 : (n == a) = false := by rw [ha]; simpa using h
      rw [List.map_cons, e1]
      simp only [List.lookup, h2]
      exact ih
    · have e1 : (if (a, v).1 = k then ((a, v).1, f (a, v).2) else (a, v))
          = (a, v) := by simp [ha]
      rw [List.map_cons, e1]
      by_cases hn : n = a
      · subst hn; simp [List.lookup]
      · have h2 : (n == a) = false := by simpa using hn
        simp only [List.lookup, h2]
        exact ih

theorem lookup_append_other (bs : Buckets) (k n : String) (c : Contents) (h : n ≠ k) :
    (bs ++ [(k, c)]).lookup n = bs.lookup n := by
  induction bs with
  | nil =>
    have h2 : (n == k) = false := by simpa using h
    simp [List.lookup, h2]
  | cons e bs ih =>
    obtain ⟨a, v⟩ := e
    by_cases hn : n = a
    · subst hn; simp [List.lookup]
    · have h2 : (n == a) = false := by simpa using hn
      simp only [List.cons_append, List.lookup, h2]
      exact ih

/-- The accessor write touches no bucket but its own and logs nothing. -/
theorem stormSetVersion_spec (env : Env) (tx : Tx) :
    ∃ tx1, stormSetVersion env tx = (tx1, none) ∧ tx1.trace = tx.trace ∧
      ∀ n, n ≠ dbinfo → tx1.buckets.lookup n = tx.buckets.lookup n := by
  unfold stormSetVersion
  split
  · exact ⟨_, rfl, rfl, fun n hn => lookup_map_other _ _ _ _ hn⟩
  · exact ⟨_, rfl, rfl, fun n hn => lookup_append_other _ _ _ _ hn⟩

/-- A version check that returns without error leaves handles and log alone and
changes no bucket other than the accessor bucket. -/
theorem checkVersion_ok_inv (env : Env) (w w1 : World) (db : Option Nat)
    (h : checkVersion env w db = .ret (w1, none)) :
    w1.handles = w.handles ∧ w1.trace = w.trace ∧
      ∀ q n, n ≠ dbinfo → (partitions w1 q).lookup n = (partitions w q).lookup n := by
  unfold checkVersion at h
  cases db with
  | none => simp at h
  | some id =>
    cases hh : w.handles[id]? with
    | none => simp only [hh] at h; simp at h
    | some hd =>
      simp only [hh] at h
      split at h
      · simp at h
      · split at h
        · obtain ⟨-, p, tx, -, hfn, hw1⟩ := dbUpdate_ok_inv w w1 (some id) _ h
          obtain ⟨tx1, k1, k2, k3⟩ :=
            stormSetVersion_spec env { buckets := partitions w p, trace := w.trace }
          rw [k1] at hfn
          simp at hfn
          subst hfn hw1
          refine ⟨rfl, k2, ?_⟩
          intro q n hn
          by_cases hq : q = p
          · subst hq; rw [partitions_committed_self]; exact k3 n hn
          · rw [partitions_committed_other w p q tx1 hq]
        · simp at h
          subst h
          exact ⟨rfl, rfl, fun _ _ _ => rfl⟩

/-- A successful `storm.Open` on a given handle returns the accessor bound to
that handle, logs the call, adds no handle and changes no bucket other than
the accessor bucket. -/
theorem stormOpen_ok_inv (env : Env) (w w2 : World) (path : String) (id : Nat)
    (st : Option StormDB) (h : stormOpen env w path (some id) = .ret (w2, st, none)) :
    st = some { Bolt := some id } ∧ w2.handles = w.handles ∧
      w2.trace = w.trace ++ [Event.stormOpen path] ∧
      ∀ q n, n ≠ dbinfo → (partitions w2 q).lookup n = (partitions w q).lookup n := by
  unfold stormOpen stormBind at h
  simp only at h
  split at h
  · simp at h
  · generalize hcv : checkVersion env
      { w with trace := w.trace ++ [Event.stormOpen path] } (some id) = r at h
    rcases r with ⟨w1, _ | e⟩ | _ | _
    · simp at h
      obtain ⟨h1, h2⟩ := h
      subst h1
      obtain ⟨k1, k2, k3⟩ := checkVersion_ok_inv env _ w1 (some id) hcv
      exact ⟨h2.symm, k1, k2, k3⟩
    · simp at h
    · simp at h
    · simp at h

/-! ## Opening steps of the two methods -/

theorem CreateSchema_ok_inv (env : Env) (w w1 : World) (b b1 : Transactions)
    (coins : List String) (h : CreateSchema env w b coins = .ret (w1, b1, none)) :
    ∃ wa id wb st, boltOpen env w b.DBPath b.Options = .ret (wa, some id, none) ∧
      stormOpen env wa b.DBPath (some id) = .ret (wb, st, none) ∧
      createSchemaLoop wb (some id) coins = .ret (w1, none) ∧
      b1 = { b with DB := some id, storm := some { Bolt := some id } } := by
  unfold CreateSchema at h
  generalize hopen : boltOpen env w b.DBPath b.Options = r at h
  rcases r with ⟨wa, db, _ | e⟩ | _ | _
  · obtain ⟨hdb, -⟩ := boltOpen_ok_inv env w wa b.DBPath b.Options db hopen
    subst hdb
    simp only at h
    generalize hst : stormOpen env wa b.DBPath (some w.handles.length) = s at h
    rcases s with ⟨wb, st, _ | e⟩ | _ | _
    · obtain ⟨hs2, -⟩ := stormOpen_ok_inv env wa wb b.DBPath _ st hst
      simp only at h
      generalize hloop : createSchemaLoop wb (some w.handles.length) coins = l at h
      rcases l with ⟨w3, e3⟩ | _ | _
      · simp at h
        obtain ⟨h1, h2, h3⟩ := h
        subst h1 hs2 h3
        exact ⟨wa, w.handles.length, wb, _, rfl, hst, hloop, h2.symm⟩
      · simp at h
      · simp at h
    · simp at h
    · simp at h
    · simp at h
  · simp at h
  · simp at h
  · simp at h

theorem configureDB_some (env : Env) (w : World) (b : Transactions) (id : Nat)
    (h : b.DB = some id) : configureDB env w b = .ret (w, b, none) := by
  simp [configureDB, h]

theorem configureStorm_some (env : Env) (w : World) (b : Transactions) (s : StormDB)
    (h : b.storm = some s) : configureStorm env w b = .ret (w, b, none) := by
  simp [configureStorm, h]

theorem configureDB_ok_inv (env : Env) (w wa : World) (b ba : Transactions)
    (h : configureDB env w b = .ret (wa, ba, none)) :
    (∃ id, ba.DB = some id) ∧ ba.storm = b.storm ∧ ba.DBPath = b.DBPath ∧
      (∀ q, partitions wa q = partitions w q) := by
  unfold configureDB at h
  split at h
  · rename_i id hid
    simp at h
    obtain ⟨h1, h2⟩ := h
    subst h1 h2
    exact ⟨⟨id, hid⟩, rfl, rfl, fun _ => rfl⟩
  · generalize hopen : boltOpen env w b.DBPath b.Options = r at h
    rcases r with ⟨w1, db, e⟩ | _ | _
    · simp at h
      obtain ⟨h1, h2, h3⟩ := h
      subst h1 h2 h3
      obtain ⟨hdb, -, -, hp, -⟩ := boltOpen_ok_inv env w w1 b.DBPath b.Options db hopen
      exact ⟨⟨_, hdb⟩, rfl, rfl, hp⟩
    · simp at h
    · simp at h

theorem configureStorm_ok_inv (env : Env) (wa wb : World) (ba bb : Transactions) (id : Nat)
    (hid : ba.DB = some id) (h : configureStorm env wa ba = .ret (wb, bb, none)) :
    (∃ s, bb.storm = some s) ∧ bb.DB = ba.DB ∧ bb.DBPath = ba.DBPath ∧
      wb.handles = wa.handles ∧
      (∀ q n, n ≠ dbinfo → (partitions wb q).lookup n = (partitions wa q).lookup n) ∧
      (ba.storm ≠ none → wb = wa) := by
  unfold configureStorm at h
  split at h
  · rename_i s hs
    simp at h
    obtain ⟨h1, h2⟩ := h
    subst h1 h2
    exact ⟨⟨s, hs⟩, rfl, rfl, rfl, fun _ _ _ => rfl, fun _ => rfl⟩
  · rename_i hnone
    rw [hid] at h
    generalize hst : stormOpen env wa ba.DBPath (some id) = r at h
    rcases r with ⟨w1, st, e⟩ | _ | _
    · simp at h
      obtain ⟨h1, h2, h3⟩ := h
      subst h1 h2 h3
      obtain ⟨k1, k2, -, k4⟩ := stormOpen_ok_inv env wa w1 ba.DBPath id st hst
      subst k1
      exact ⟨⟨_, rfl⟩, hid.symm, rfl, k2, k4, fun hne => absurd hnone hne⟩
    · simp at h
    · simp at h

theorem Configure_ok_inv (env : Env) (w w1 : World) (b b1 : Transactions) (coins : List String)
    (h : Configure env w b coins = .ret (w1, b1, none)) :
    ∃ wa ba wb, configureDB env w b = .ret (wa, ba, none) ∧
      configureStorm env wa ba = .ret (wb, b1, none) ∧
      dbUpdate wb b1.DB (configureFn coins) = .ret (w1, none) := by
  unfold Configure at h
  generalize hdb : configureDB env w b = r at h
  rcases r with ⟨wa, ba, _ | e⟩ | _ | _
  · simp only at h
    generalize hst : configureStorm env wa ba = s at h
    rcases s with ⟨wb, bb, _ | e⟩ | _ | _
    · simp only at h
      generalize hupd : dbUpdate wb bb.DB (configureFn coins) = u at h
      rcases u with ⟨w3, e3⟩ | _ | _
      · simp at h
        obtain ⟨h1, h2, h3⟩ := h
        subst h1 h2 h3
        exact ⟨wa, ba, wb, rfl, hst, hupd⟩
      · simp at h
      · simp at h
    · simp at h
    · simp at h
    · simp at h
  · simp at h
  · simp at h
  · simp at h

/-! ## IsCreated -/

theorem IsCreated_path (fe : String → Bool × Option String) (file : String) (b : Transactions)
    (coins : List String) :
    (IsCreated fe file b coins).1.DBPath = b.DBPath ++ "/" ++ file ∧
    (IsCreated fe file b coins).2 = (fe (b.DBPath ++ "/" ++ file)).1 := by
  simp [IsCreated]

theorem copies_length (s : String) (n : Nat) : (copies s n).length = n * s.length := by
  induction n with
  | zero => simp [copies]
  | succ n ih => simp [copies, String.length_append, ih, Nat.succ_mul, Nat.add_comm]

/-- C10: after the calls in `calls` (any number of consecutive `IsCreated`
calls, each with its own coin list) the path field is the initial path
followed by one copy of "/" + filename per call, so it grows by the same
amount at every call; the call number k+1 returns what the existence check
answers for the initial path followed by k+1 copies, so the second call
probes d/file/file. -/
theorem IsCreated_repeated (fe : String → Bool × Option String) (file : String)
    (b : Transactions) (calls : List (List String)) :
    (IsCreatedRepeat fe file b calls).1.DBPath = b.DBPath ++ copies ("/" ++ file) calls.length ∧
    (IsCreatedRepeat fe file b calls).1.DBPath.length
      = b.DBPath.length + calls.length * (1 + file.length) ∧
    (IsCreatedRepeat fe file b calls).2 =
      (List.range calls.length).map
        (fun k => (fe (b.DBPath ++ copies ("/" ++ file) (k + 1))).1) := by
  have key : ∀ (calls : List (List String)) (b : Transactions),
      (IsCreatedRepeat fe file b calls).1.DBPath
          = b.DBPath ++ copies ("/" ++ file) calls.length ∧
      (IsCreatedRepeat fe file b calls).2 =
        (List.range calls.length).map
          (fun k => (fe (b.DBPath ++ copies ("/" ++ file) (k + 1))).1) := by
    intro calls
    induction calls with
    | nil => intro b; simp [IsCreatedRepeat, copies]
    | cons coins rest ih =>
      intro b
      obtain ⟨hp, hr⟩ := IsCreated_path fe file b coins
      obtain ⟨ih1, ih2⟩ := ih (IsCreated fe file b coins).1
      have hstep : ∀ n, (b.DBPath ++ "/" ++ file) ++ copies ("/" ++ file) n
          = b.DBPath ++ copies ("/" ++ file) (n + 1) := by
        intro n
        simp [copies, String.append_assoc]
      constructor
      · simp only [IsCreatedRepeat, List.length_cons]
        rw [ih1, hp, hstep]
      · simp only [IsCreatedRepeat, List.length_cons]
        rw [ih2, hr, hp, List.range_succ_eq_map]
        simp [hstep, copies, String.append_assoc, Function.comp_def]
  obtain ⟨h1, h2⟩ := key calls b
  refine ⟨h1, ?_, h2⟩
  rw [h1, String.length_append, copies_length, String.length_append]
  rfl

/-- C6: with the existence helper as the spec describes it, `IsCreated`
returns true when a file exists at directory + "/" + filename and false when
none exists, the answer and the new receiver do not depend on the coin list,
and whatever the probe answers (also when it fails) the path field afterwards
is the resolved path, which differs from the directory. -/
theorem IsCreated_probes (fs : FileSystem) (file : String) (b : Transactions)
    (coins : List String) :
    (fs (b.DBPath ++ "/" ++ file) = Stat.present →
      (IsCreated (fileExists fs) file b coins).2 = true) ∧
    (fs (b.DBPath ++ "/" ++ file) = Stat.absent →
      (IsCreated (fileExists fs) file b coins).2 = false) ∧
    (∀ coins2, IsCreated (fileExists fs) file b coins2 = IsCreated (fileExists fs) file b coins) ∧
    (IsCreated (fileExists fs) file b coins).1.DBPath = b.DBPath ++ "/" ++ file ∧
    (IsCreated (fileExists fs) file b coins).1.DBPath ≠ b.DBPath := by
  refine ⟨?_, ?_, ?_, ?_, ?_⟩
  · intro h; simp [IsCreated, fileExists, h]
  · intro h; simp [IsCreated, fileExists, h]
  · intro coins2; rfl
  · simp [IsCreated]
  · intro h
    have hl := congrArg String.length h
    have h1 : "/".length = 1 := rfl
    simp only [IsCreated, String.length_append, h1] at hl
    omega

/-- Witness for C6: in `sampleFS` the file under `db` exists and the call
answers true, the file under `tmp` does not and the call answers false, the
probe under `var` fails and the path field is still rewritten. -/
theorem IsCreated_probes_witness :
    sampleFS (freshStore.DBPath ++ "/" ++ "transactions.db") = Stat.present ∧
    (IsCreated (fileExists sampleFS) "transactions.db" freshStore ["BTC"]).2 = true ∧
    sampleFS (tmpStore.DBPath ++ "/" ++ "transactions.db") = Stat.absent ∧
    (IsCreated (fileExists sampleFS) "transactions.db" tmpStore []).2 = false ∧
    (IsCreated (fileExists sampleFS) "transactions.db" varStore ["BTC"]).1.DBPath
      = varStore.DBPath ++ "/" ++ "transactions.db" :=
  ⟨by decide,
   (IsCreated_probes sampleFS "transactions.db" freshStore ["BTC"]).1 (by decide),
   by decide,
   (IsCreated_probes sampleFS "transactions.db" tmpStore []).2.1 (by decide),
   (IsCreated_probes sampleFS "transactions.db" varStore ["BTC"]).2.2.2.1⟩

/-! ## Open failures -/

/-- C8: when opening the database file fails with error `e`, `CreateSchema`
returns exactly `e`, and so does `Configure` on an instance whose handle is
nil; the only library call made is the failed open (no bucket creation is
attempted), no handle is added and every database file is as before. -/
theorem open_failure_passes_through (env : Env) (w w1 : World) (b : Transactions)
    (coins : List String) (db : Option Nat) (e : String)
    (hopen : boltOpen env w b.DBPath b.Options = .ret (w1, db, some e)) :
    CreateSchema env w b coins = .ret (w1, { b with DB := db }, some e) ∧
    (b.DB = none → Configure env w b coins = .ret (w1, { b with DB := db }, some e)) ∧
    w1.trace = w.trace ++ [Event.boltOpen b.DBPath] ∧
    w1.files = w.files ∧ w1.handles = w.handles := by
  obtain ⟨-, hw1⟩ := boltOpen_err_inv env w w1 b.DBPath b.Options db e hopen
  refine ⟨by simp [CreateSchema, hopen], ?_, by rw [hw1], by rw [hw1], by rw [hw1]⟩
  intro hnil
  simp [Configure, configureDB, hnil, hopen]

/-! ## CreateSchema -/

/-- C9: when the database file and the accessor can be opened,
`CreateSchema` with an empty coin list returns no error and leaves the handle
and the accessor set on the receiver; it makes no bucket creation call (its
only library calls are the two opens), and every bucket of every file other
than the accessor's own bookkeeping bucket `__storm_db`, which `storm.Open`
may write, is present with the same contents exactly as before. -/
theorem CreateSchema_empty (env : Env) (w w1 w2 : World) (b : Transactions) (id : Nat)
    (st : Option StormDB)
    (hopen : boltOpen env w b.DBPath b.Options = .ret (w1, some id, none))
    (hstorm : stormOpen env w1 b.DBPath (some id) = .ret (w2, st, none)) :
    CreateSchema env w b []
      = .ret (w2, { b with DB := some id, storm := some { Bolt := some id } }, none) ∧
    handlePath w2 (some id) = some b.DBPath ∧
    w2.trace = w.trace ++ [Event.boltOpen b.DBPath, Event.stormOpen b.DBPath] ∧
    (∀ name, Event.createBucketIfNotExists name ∈ w2.trace →
      Event.createBucketIfNotExists name ∈ w.trace) ∧
    (∀ q n, n ≠ dbinfo → (partitions w2 q).lookup n = (partitions w q).lookup n) := by
  obtain ⟨-, -, htr, hp, hhp, -⟩ := boltOpen_ok_inv env w w1 b.DBPath b.Options _ hopen
  obtain ⟨k1, k2, k3, k4⟩ := stormOpen_ok_inv env w1 w2 b.DBPath id st hstorm
  subst k1
  refine ⟨?_, ?_, ?_, ?_, ?_⟩
  · simp [CreateSchema, hopen, hstorm, createSchemaLoop]
  · exact (handlePath_congr w1 w2 (some id) k2).trans hhp
  · rw [k3, htr]; simp
  · intro name hm
    rw [k3, htr] at hm
    simpa using hm
  · intro q n hn
    rw [k4 q n hn, hp q]

/-- C2, as amended: on a store that opens and accepts write transactions (its
handle is not read-only), with a coin list whose first failing coin (the
empty name) comes after the non-empty names `pre`, `CreateSchema` returns the
error "create bucket: " followed by the engine message, the buckets for all
of `pre` exist afterwards, buckets that existed keep their contents (the
accessor's own bucket apart), and the creations attempted are exactly those
for `pre` and the failing coin, none for the coins after it. -/
theorem CreateSchema_keeps_progress (env : Env) (w w1 w2 : World) (b : Transactions) (id : Nat)
    (st : Option StormDB) (pre post : List String)
    (hopen : boltOpen env w b.DBPath b.Options = .ret (w1, some id, none))
    (hstorm : stormOpen env w1 b.DBPath (some id) = .ret (w2, st, none))
    (hw : writable w2 (some id) = true)
    (hpre : ∀ c ∈ pre, c ≠ "") :
    ∃ w3, CreateSchema env w b (pre ++ "" :: post)
        = .ret (w3, { b with DB := some id, storm := some { Bolt := some id } },
            some ("create bucket: " ++ ErrBucketNameRequired)) ∧
      (∀ c ∈ pre, c ∈ bucketNames (partitions w3 b.DBPath)) ∧
      (∀ n v, n ≠ dbinfo → (partitions w b.DBPath).lookup n = some v →
        (partitions w3 b.DBPath).lookup n = some v) ∧
      w3.trace = w.trace ++ [Event.boltOpen b.DBPath, Event.stormOpen b.DBPath]
        ++ (pre ++ [""]).map Event.createBucketIfNotExists := by
  obtain ⟨-, -, htr, hp, hhp, -⟩ := boltOpen_ok_inv env w w1 b.DBPath b.Options _ hopen
  obtain ⟨k1, k2, k3, k4⟩ := stormOpen_ok_inv env w1 w2 b.DBPath id st hstorm
  subst k1
  have hp2 : handlePath w2 (some id) = some b.DBPath :=
    (handlePath_congr w1 w2 (some id) k2).trans hhp
  obtain ⟨w3, l1, -, l3, l4, -⟩ := createSchemaLoop_fail pre post w2 (some id) b.DBPath hw hp2 hpre
  refine ⟨w3, ?_, ?_, ?_, ?_⟩
  · simp [CreateSchema, hopen, hstorm, l1]
  · intro c hc; exact (l4.1 c).2 (Or.inr hc)
  · intro n v hn hv
    apply l4.2
    rw [k4 b.DBPath n hn, hp b.DBPath]
    exact hv
  · rw [l3, k3, htr]; simp

/-- After a successful `CreateSchema` every coin of the list names a bucket of
the store, the handle is bound to the store path, and for a non-empty coin
list the handle is open for writing. -/
theorem CreateSchema_ok_state (env : Env) (w w1 : World) (b b1 : Transactions)
    (coins : List String) (h : CreateSchema env w b coins = .ret (w1, b1, none)) :
    ∃ id, b1 = { b with DB := some id, storm := some { Bolt := some id } } ∧
      handlePath w1 (some id) = some b.DBPath ∧
      (coins ≠ [] → writable w1 (some id) = true) ∧
      ((b.Options.getD DefaultOptions).ReadOnly = false → writable w1 (some id) = true) ∧
      (∀ c ∈ coins, c ∈ bucketNames (partitions w1 b.DBPath)) := by
  obtain ⟨wa, id, wb, st, hopen, hst, hloop, hb1⟩ := CreateSchema_ok_inv env w w1 b b1 coins h
  obtain ⟨-, -, -, -, hhp, hwr⟩ := boltOpen_ok_inv env w wa b.DBPath b.Options _ hopen
  obtain ⟨-, k2, -, -⟩ := stormOpen_ok_inv env wa wb b.DBPath id st hst
  obtain ⟨hne, hwl⟩ := createSchemaLoop_ok_inv coins wb w1 (some id) hloop
  have hp2 : handlePath wb (some id) = some b.DBPath :=
    (handlePath_congr wa wb (some id) k2).trans hhp
  by_cases hc : coins = []
  · subst hc
    simp [createSchemaLoop] at hloop
    subst hloop
    refine ⟨id, hb1, hp2, fun h0 => absurd rfl h0, ?_, by simp⟩
    intro hro
    exact (writable_congr wa wb (some id) k2).trans (by rw [hwr, hro]; rfl)
  · have hw2 := hwl hc
    obtain ⟨w1', l1, l2, -, l4, -⟩ := createSchemaLoop_ok coins wb (some id) b.DBPath hw2 hp2 hne
    rw [hloop] at l1
    simp at l1
    subst l1
    have hw1 : writable w1 (some id) = true := (writable_congr wb w1 (some id) l2).trans hw2
    refine ⟨id, hb1, ?_, fun _ => hw1, fun _ => hw1, ?_⟩
    · exact (handlePath_congr wb w1 (some id) l2).trans hp2
    · intro c hcm; exact (l4.1 c).2 (Or.inr hcm)

/-! ## Configure -/

/-- C1, as amended: when the handle and accessor steps of `Configure` succeed
and the handle accepts write transactions (it is not read-only), a coin list
that contains a coin whose creation fails (the empty name) makes `Configure`
return "error creating bucket: " followed by the engine message, and the
update adds nothing: the buckets of every file, names and contents, are those
present once handle and accessor were opened.  Against the state before the
call every bucket other than the accessor's own `__storm_db` is unchanged,
and when the accessor was already set every bucket is. -/
theorem Configure_all_or_nothing (env : Env) (w wa wb : World) (b ba bb : Transactions)
    (coins : List String)
    (hdb : configureDB env w b = .ret (wa, ba, none))
    (hst : configureStorm env wa ba = .ret (wb, bb, none))
    (hw : writable wb bb.DB = true)
    (hfail : "" ∈ coins) :
    ∃ w1, Configure env w b coins
        = .ret (w1, bb, some ("error creating bucket: " ++ ErrBucketNameRequired)) ∧
      (∀ q, partitions w1 q = partitions wb q) ∧
      (∀ q n, n ≠ dbinfo → (partitions w1 q).lookup n = (partitions w q).lookup n) ∧
      (b.storm ≠ none → ∀ q, partitions w1 q = partitions w q) := by
  obtain ⟨p, hp⟩ := writable_handlePath wb bb.DB hw
  obtain ⟨tx1, hfn⟩ := configureFn_fails coins { buckets := partitions wb p, trace := wb.trace } hfail
  have hupd := dbUpdate_rollback wb bb.DB (configureFn coins) p tx1 _ hw hp hfn
  obtain ⟨⟨id, hid⟩, hsa, -, hpa⟩ := configureDB_ok_inv env w wa b ba hdb
  obtain ⟨-, -, -, -, hlk, hsame⟩ := configureStorm_ok_inv env wa wb ba bb id hid hst
  refine ⟨{ wb with trace := tx1.trace }, by simp [Configure, hdb, hst, hupd], fun _ => rfl, ?_, ?_⟩
  · intro q n hn
    exact (hlk q n hn).trans (by rw [hpa q])
  · intro hs q
    have hwb : wb = wa := hsame (by rw [hsa]; exact hs)
    subst hwb
    exact hpa q

/-- C3: in a store state reached by a successful `CreateSchema`, a successful
`Configure` makes the bucket names of the store exactly the previous names
together with the names of its coin list, keeps the contents of every bucket
that existed, leaves every other database file alone and does not change the
receiver.  (A successful `Configure` implies that its names are non-empty.) -/
theorem Configure_adds_missing (env : Env) (w0 w1 w2 : World) (b0 b1 b2 : Transactions)
    (coins1 coins2 : List String)
    (hcs : CreateSchema env w0 b0 coins1 = .ret (w1, b1, none))
    (hcf : Configure env w1 b1 coins2 = .ret (w2, b2, none)) :
    (∀ n, n ∈ bucketNames (partitions w2 b0.DBPath) ↔
      n ∈ bucketNames (partitions w1 b0.DBPath) ∨ n ∈ coins2) ∧
    (∀ n v, (partitions w1 b0.DBPath).lookup n = some v →
      (partitions w2 b0.DBPath).lookup n = some v) ∧
    (∀ q, q ≠ b0.DBPath → partitions w2 q = partitions w1 q) ∧
    (∀ c ∈ coins2, c ≠ "") ∧
    b2 = b1 := by
  obtain ⟨id, hb1, hhp, -, -, -⟩ := CreateSchema_ok_state env w0 w1 b0 b1 coins1 hcs
  have hDB : b1.DB = some id := by rw [hb1]
  have hS : b1.storm = some { Bolt := some id } := by rw [hb1]
  obtain ⟨wa, ba, wb, hdb, hst, hupd⟩ := Configure_ok_inv env w1 w2 b1 b2 coins2 hcf
  rw [configureDB_some env w1 b1 id hDB] at hdb
  simp at hdb
  obtain ⟨ha, hba⟩ := hdb
  subst ha hba
  rw [configureStorm_some env w1 b1 _ hS] at hst
  simp at hst
  obtain ⟨hb, hbb⟩ := hst
  subst hb hbb
  obtain ⟨-, p, tx, hp, hfn, hw2⟩ := dbUpdate_ok_inv w1 w2 b1.DB _ hupd
  rw [hDB, hhp] at hp
  simp at hp
  subst hp
  have hne : ∀ c ∈ coins2, c ≠ "" := by
    intro c hc h0
    subst h0
    obtain ⟨tx1, hf⟩ := configureFn_fails coins2
      { buckets := partitions w1 b0.DBPath, trace := w1.trace } hc
    rw [hf] at hfn
    simp at hfn
  obtain ⟨tx1, k1, -, k3⟩ := configureFn_ok coins2
    { buckets := partitions w1 b0.DBPath, trace := w1.trace } hne
  rw [k1] at hfn
  simp at hfn
  subst hfn
  subst hw2
  refine ⟨?_, ?_, ?_, hne, rfl⟩
  · rw [partitions_committed_self]; exact k3.1
  · rw [partitions_committed_self]; exact k3.2
  · intro q hq; exact partitions_committed_other w1 b0.DBPath q tx1 hq

/-- C4: after a first successful `Configure`, a second `Configure` on the
same instance returns with the receiver unchanged (same handle pointer, same
accessor), adds no handle object, and the library calls it makes contain
neither a database open nor an accessor open. -/
theorem Configure_opens_once (env : Env) (w w1 : World) (b b1 : Transactions)
    (coins1 coins2 : List String)
    (hfirst : Configure env w b coins1 = .ret (w1, b1, none)) :
    ∃ w2 err evs, Configure env w1 b1 coins2 = .ret (w2, b1, err) ∧
      w2.trace = w1.trace ++ evs ∧ (∀ e ∈ evs, e.isOpen = false) ∧
      w2.handles = w1.handles ∧ b1.DB ≠ none ∧ b1.storm ≠ none := by
  obtain ⟨wa, ba, wb, hdb, hst, hupd⟩ := Configure_ok_inv env w w1 b b1 coins1 hfirst
  obtain ⟨⟨id, hid⟩, -, -, -⟩ := configureDB_ok_inv env w wa b ba hdb
  obtain ⟨⟨s, hs⟩, hsDB, -, -, -, -⟩ := configureStorm_ok_inv env wa wb ba b1 id hid hst
  have hDB : b1.DB = some id := by rw [hsDB, hid]
  obtain ⟨hw, p, tx, hp, -, hw1⟩ := dbUpdate_ok_inv wb w1 b1.DB _ hupd
  have hh : w1.handles = wb.handles := by rw [hw1]; rfl
  have hw' : writable w1 b1.DB = true := (writable_congr wb w1 b1.DB hh).trans hw
  have hp' : handlePath w1 b1.DB = some p := (handlePath_congr wb w1 b1.DB hh).trans hp
  obtain ⟨evs, htr, hev⟩ := configureFn_trace coins2
    { buckets := partitions w1 p, trace := w1.trace }
  have hd2 := configureDB_some env w1 b1 id hDB
  have hs2 := configureStorm_some env w1 b1 s hs
  generalize hres : configureFn coins2 { buckets := partitions w1 p, trace := w1.trace } = r at htr
  rcases r with ⟨tx2, _ | e⟩
  · have hu := dbUpdate_commit w1 b1.DB (configureFn coins2) p tx2 hw' hp' hres
    refine ⟨committed w1 p tx2, none, evs, by simp [Configure, hd2, hs2, hu], htr, hev, rfl,
      by simp [hDB], by simp [hs]⟩
  · have hu := dbUpdate_rollback w1 b1.DB (configureFn coins2) p tx2 e hw' hp' hres
    refine ⟨{ w1 with trace := tx2.trace }, some e, evs, by simp [Configure, hd2, hs2, hu],
      htr, hev, rfl, by simp [hDB], by simp [hs]⟩

/-! ## Close -/

theorem dbClose_valid (w : World) (id : Nat) (p : String) (h : handlePath w (some id) = some p) :
    ∃ w2, dbClose w (some id) = .ret (w2, none) := by
  unfold handlePath at h
  unfold dbClose
  cases hh : w.handles[id]? with
  | none => simp only [hh] at h; simp at h
  | some hd =>
    exact ⟨{ w with
              handles := w.handles.set id { hd with opened := false }
              trace := w.trace ++ [Event.close] }, by simp only [hh]⟩

/-- C7, as amended: `Close` after a successful `CreateSchema` or a successful
`Configure` returns no error; `Close` on an instance whose handle field is
nil does not return at all, it panics with a nil pointer dereference. -/
theorem Close_reports (env : Env) (w w1 : World) (b b1 : Transactions) (coins : List String) :
    (CreateSchema env w b coins = .ret (w1, b1, none) → ∃ w2, Close w1 b1 = .ret (w2, none)) ∧
    (Configure env w b coins = .ret (w1, b1, none) → ∃ w2, Close w1 b1 = .ret (w2, none)) ∧
    (b.DB = none → Close w b = .panic nilPointerDereference) := by
  refine ⟨?_, ?_, ?_⟩
  · intro h
    obtain ⟨id, hb1, hhp, -⟩ := CreateSchema_ok_state env w w1 b b1 coins h
    have hDB : b1.DB = some id := by rw [hb1]
    unfold Close; rw [hDB]
    exact dbClose_valid w1 id _ hhp
  · intro h
    obtain ⟨wa, ba, wb, -, -, hupd⟩ := Configure_ok_inv env w w1 b b1 coins h
    obtain ⟨-, p, tx, hp, -, hw1⟩ := dbUpdate_ok_inv wb w1 b1.DB _ hupd
    have hh : w1.handles = wb.handles := by rw [hw1]; rfl
    have hp' : handlePath w1 b1.DB = some p := (handlePath_congr wb w1 b1.DB hh).trans hp
    cases hDB : b1.DB with
    | none => rw [hDB] at hp'; simp [handlePath] at hp'
    | some id =>
      rw [hDB] at hp'
      unfold Close; rw [hDB]
      exact dbClose_valid w1 id p hp'
  · intro h
    simp [Close, dbClose, h]


/-! ## Calling CreateSchema again -/

theorem lockHeld_of_writable (w : World) (id : Nat) (p : String) (ro : Bool)
    (hw : writable w (some id) = true) (hp : handlePath w (some id) = some p) :
    lockHeld w p ro = true := by
  unfold writable at hw
  unfold handlePath at hp
  cases hh : w.handles[id]? with
  | none => simp only [hh] at hw; simp at hw
  | some h =>
    simp only [hh] at hw hp
    simp at hw hp
    unfold lockHeld
    rw [List.any_eq_true]
    refine ⟨h, List.getElem?_mem hh, ?_⟩
    simp [hw.1, hw.2, hp]

theorem boltOpen_ok_unlocked (env : Env) (w w1 : World) (path : String) (o : Option Options)
    (db : Option Nat) (h : boltOpen env w path o = .ret (w1, db, none)) :
    lockHeld w path (o.getD DefaultOptions).ReadOnly = false := by
  unfold boltOpen at h
  simp only at h
  split at h
  · simp at h
  · split at h
    · split at h <;> simp at h
    · rename_i hl
      simpa [lockHeld] using hl

/-- After a successful `CreateSchema` on a store opened read-write, a further
`CreateSchema` on the same instance never returns without error: the file
lock of the first handle is still held when the file is opened again. -/
theorem CreateSchema_again_blocked (env : Env) (w w1 : World) (b b1 : Transactions)
    (coins coins2 : List String)
    (h : CreateSchema env w b coins = .ret (w1, b1, none))
    (hrw : (b.Options.getD DefaultOptions).ReadOnly = false) (w2 : World) (b2 : Transactions) :
    CreateSchema env w1 b1 coins2 ≠ .ret (w2, b2, none) := by
  intro h2
  obtain ⟨id, hb1, hhp, -, hwr, -⟩ := CreateSchema_ok_state env w w1 b b1 coins h
  obtain ⟨wa, id2, -, -, hopen, -⟩ := CreateSchema_ok_inv env w1 w2 b1 b2 coins2 h2
  have hl := boltOpen_ok_unlocked env w1 wa b1.DBPath b1.Options _ hopen
  have hP : b1.DBPath = b.DBPath := by rw [hb1]
  have hO : b1.Options = b.Options := by rw [hb1]
  rw [hP, hO] at hl
  rw [lockHeld_of_writable w1 id b.DBPath _ (hwr hrw) hhp] at hl
  simp at hl



/-- C5, evaluated: on a fresh store with a lock timeout the first
`CreateSchema` with BTC and ETH returns no error and both buckets exist (next
to the accessor bucket); the second call on the same instance opens the file
again while the first handle still holds the file lock and returns the engine
error `timeout`.  On a store with nil options (no timeout) the second call
never returns. -/
theorem CreateSchema_twice_fails :
    (∃ w1 b1, CreateSchema permissiveEnv emptyWorld freshStore ["BTC", "ETH"]
        = .ret (w1, b1, none) ∧
      (∀ n, n ∈ bucketNames (partitions w1 "db") ↔ n = "BTC" ∨ n = "ETH" ∨ n = dbinfo) ∧
      ∃ w2 b2, CreateSchema permissiveEnv w1 b1 ["BTC", "ETH"]
        = .ret (w2, b2, some ErrTimeout)) ∧
    (∃ w1 b1, CreateSchema permissiveEnv emptyWorld defaultStore ["BTC", "ETH"]
        = .ret (w1, b1, none) ∧
      CreateSchema permissiveEnv w1 b1 ["BTC", "ETH"] = .hang) := by
  refine ⟨⟨createdBE.1, createdBE.2, rfl, ?_, _, _, rfl⟩, ⟨_, _, rfl, rfl⟩⟩
  intro n
  have e : bucketNames (partitions createdBE.1 "db") = [dbinfo, "BTC", "ETH"] := rfl
  rw [e]
  simp only [List.mem_cons, List.mem_singleton, List.not_mem_nil, or_false]
  constructor
  · rintro (h | h | h)
    · exact Or.inr (Or.inr h)
    · exact Or.inl h
    · exact Or.inr (Or.inl h)
  · rintro (h | h | h)
    · exact Or.inr (Or.inl h)
    · exact Or.inr (Or.inr h)
    · exact Or.inl h

/-! ## Concrete runs -/

theorem readOnly_not_createSchema_wrapped (e : String) :
    ErrDatabaseReadOnly ≠ "create bucket: " ++ e := by
  intro h
  have h1 := congrArg (fun s : String => s.data.head?) h
  simp [ErrDatabaseReadOnly, String.data_append] at h1

theorem readOnly_not_configure_wrapped (e : String) :
    ErrDatabaseReadOnly ≠ "error creating bucket: " ++ e := by
  intro h
  have h1 := congrArg (fun s : String => s.data.head?) h
  simp [ErrDatabaseReadOnly, String.data_append] at h1

/-- Counterexample for C1 as stated.  First, a store whose handle and accessor
open successfully but read-only: `Configure` with LTC and the empty name
returns the engine message "database is in read-only mode", which is not
"error creating bucket: " followed by anything.  Second, the fresh store with
the coins `__storm_db` and the empty name: the call fails at the empty name,
yet the file had no bucket before and has the bucket `__storm_db`, named by
the coin before the failing one, afterwards. -/
theorem Configure_failure_counterexample :
    (Configure permissiveEnv versionedWorld readOnlyStore ["LTC", ""]
        = .ret (readOnlyConfigured.1, readOnlyConfigured.2, some ErrDatabaseReadOnly) ∧
      readOnlyConfigured.2.DB = some 0 ∧
      readOnlyConfigured.2.storm = some { Bolt := some 0 } ∧
      (∀ e, ErrDatabaseReadOnly ≠ "error creating bucket: " ++ e)) ∧
    (Configure permissiveEnv emptyWorld freshStore ["__storm_db", ""]
        = .ret (configuredStormCoin.1, configuredStormCoin.2,
            some ("error creating bucket: " ++ ErrBucketNameRequired)) ∧
      bucketNames (partitions emptyWorld "db") = [] ∧
      "__storm_db" ∈ bucketNames (partitions configuredStormCoin.1 "db")) :=
  ⟨⟨rfl, rfl, rfl, readOnly_not_configure_wrapped⟩, ⟨rfl, rfl, by decide⟩⟩

/-- Witness for C1 as amended: in the legacy world the coin list LTC, empty
name, ETH makes `Configure` fail with the wrapped engine message; the buckets
are those present after the opens and only the accessor bucket is new. -/
theorem Configure_all_or_nothing_witness :
    configureDB permissiveEnv legacyWorld freshStore = .ret (legacyOpened, openedStore, none) ∧
    configureStorm permissiveEnv legacyOpened openedStore
      = .ret (legacyAccessor, accessorStore, none) ∧
    writable legacyAccessor accessorStore.DB = true ∧
    "" ∈ ["LTC", "", "ETH"] ∧
    ∃ w1, Configure permissiveEnv legacyWorld freshStore ["LTC", "", "ETH"]
        = .ret (w1, accessorStore, some ("error creating bucket: " ++ ErrBucketNameRequired)) ∧
      (∀ q, partitions w1 q = partitions legacyAccessor q) ∧
      (∀ q n, n ≠ dbinfo → (partitions w1 q).lookup n = (partitions legacyWorld q).lookup n) ∧
      (freshStore.storm ≠ none → ∀ q, partitions w1 q = partitions legacyWorld q) :=
  ⟨rfl, rfl, rfl, by decide,
   Configure_all_or_nothing permissiveEnv legacyWorld legacyOpened legacyAccessor
     freshStore openedStore accessorStore ["LTC", "", "ETH"] rfl rfl rfl (by decide)⟩

/-- Counterexample for C2 as stated: on the store whose handle and accessor
open successfully but read-only, `CreateSchema` with LTC and the empty name
returns the engine message "database is in read-only mode", which is not
"create bucket: " followed by anything, and no LTC bucket exists afterwards. -/
theorem CreateSchema_failure_counterexample :
    CreateSchema permissiveEnv versionedWorld readOnlyStore ["LTC", ""]
      = .ret (readOnlyCreated.1, readOnlyCreated.2, some ErrDatabaseReadOnly) ∧
    readOnlyCreated.2.DB = some 0 ∧
    readOnlyCreated.2.storm = some { Bolt := some 0 } ∧
    (∀ e, ErrDatabaseReadOnly ≠ "create bucket: " ++ e) ∧
    "LTC" ∉ bucketNames (partitions readOnlyCreated.1 "db") :=
  ⟨rfl, rfl, rfl, readOnly_not_createSchema_wrapped, by decide⟩

/-- Witness for C2 as amended: with the coin list BTC, empty name, ETH on the
fresh store `CreateSchema` fails at index 1, BTC exists afterwards and ETH is
never attempted. -/
theorem CreateSchema_keeps_progress_witness :
    boltOpen permissiveEnv emptyWorld freshStore.DBPath freshStore.Options
      = .ret (openedWorld, some 0, none) ∧
    stormOpen permissiveEnv openedWorld freshStore.DBPath (some 0)
      = .ret (accessorWorld, some { Bolt := some 0 }, none) ∧
    writable accessorWorld (some 0) = true ∧
    (∀ c ∈ ["BTC"], c ≠ "") ∧
    ∃ w3, CreateSchema permissiveEnv emptyWorld freshStore (["BTC"] ++ "" :: ["ETH"])
        = .ret (w3, { freshStore with DB := some 0, storm := some { Bolt := some 0 } },
            some ("create bucket: " ++ ErrBucketNameRequired)) ∧
      (∀ c ∈ ["BTC"], c ∈ bucketNames (partitions w3 freshStore.DBPath)) ∧
      (∀ n v, n ≠ dbinfo → (partitions emptyWorld freshStore.DBPath).lookup n = some v →
        (partitions w3 freshStore.DBPath).lookup n = some v) ∧
      w3.trace = emptyWorld.trace
        ++ [Event.boltOpen freshStore.DBPath, Event.stormOpen freshStore.DBPath]
        ++ (["BTC"] ++ [""]).map Event.createBucketIfNotExists :=
  ⟨rfl, rfl, rfl, by decide,
   CreateSchema_keeps_progress permissiveEnv emptyWorld openedWorld accessorWorld freshStore 0
     (some { Bolt := some 0 }) ["BTC"] ["ETH"] rfl rfl rfl (by decide)⟩

/-- Witness for C3: after `CreateSchema` with BTC and ETH, `Configure` with BTC
and LTC succeeds and the stated frame holds between the two states. -/
theorem Configure_adds_missing_witness :
    CreateSchema permissiveEnv emptyWorld freshStore ["BTC", "ETH"]
      = .ret (createdBE.1, createdBE.2, none) ∧
    Configure permissiveEnv createdBE.1 createdBE.2 ["BTC", "LTC"]
      = .ret (configuredBL.1, configuredBL.2, none) ∧
    ((∀ n, n ∈ bucketNames (partitions configuredBL.1 freshStore.DBPath) ↔
      n ∈ bucketNames (partitions createdBE.1 freshStore.DBPath) ∨ n ∈ ["BTC", "LTC"]) ∧
    (∀ n v, (partitions createdBE.1 freshStore.DBPath).lookup n = some v →
      (partitions configuredBL.1 freshStore.DBPath).lookup n = some v) ∧
    (∀ q, q ≠ freshStore.DBPath → partitions configuredBL.1 q = partitions createdBE.1 q) ∧
    (∀ c ∈ ["BTC", "LTC"], c ≠ "") ∧
    configuredBL.2 = createdBE.2) :=
  ⟨rfl, rfl, Configure_adds_missing permissiveEnv emptyWorld createdBE.1 configuredBL.1
    freshStore createdBE.2 configuredBL.2 ["BTC", "ETH"] ["BTC", "LTC"] rfl rfl⟩

/-- Witness for C4: `Configure` with BTC and ETH on the unopened fresh store
succeeds, and a second `Configure` with LTC keeps the receiver and opens
nothing. -/
theorem Configure_opens_once_witness :
    freshStore.DB = none ∧ freshStore.storm = none ∧
    Configure permissiveEnv emptyWorld freshStore ["BTC", "ETH"]
      = .ret (configuredBE.1, configuredBE.2, none) ∧
    ∃ w2 err evs, Configure permissiveEnv configuredBE.1 configuredBE.2 ["LTC"]
        = .ret (w2, configuredBE.2, err) ∧
      w2.trace = configuredBE.1.trace ++ evs ∧ (∀ e ∈ evs, e.isOpen = false) ∧
      w2.handles = configuredBE.1.handles ∧ configuredBE.2.DB ≠ none ∧
      configuredBE.2.storm ≠ none :=
  ⟨rfl, rfl, rfl,
   Configure_opens_once permissiveEnv emptyWorld configuredBE.1 freshStore configuredBE.2
     ["BTC", "ETH"] ["LTC"] rfl⟩

/-- Counterexample for C7 as stated: on the unopened fresh store the handle
field is nil and `Close` does not return an error value; the call panics. -/
theorem Close_unopened_no_error :
    freshStore.DB = none ∧
    (¬ ∃ w2 e, Close emptyWorld freshStore = .ret (w2, some e)) ∧
    Close emptyWorld freshStore = .panic nilPointerDereference := by
  refine ⟨rfl, ?_, rfl⟩
  rintro ⟨w2, e, h⟩
  simp [Close, dbClose, freshStore] at h

/-- Witness for C7 as amended: `Close` returns no error after the successful
`CreateSchema` and after the successful `Configure` on the fresh store, and
panics on the unopened fresh store. -/
theorem Close_reports_witness :
    CreateSchema permissiveEnv emptyWorld freshStore ["BTC", "ETH"]
      = .ret (createdBE.1, createdBE.2, none) ∧
    (∃ w2, Close createdBE.1 createdBE.2 = .ret (w2, none)) ∧
    Configure permissiveEnv emptyWorld freshStore ["BTC", "ETH"]
      = .ret (configuredBE.1, configuredBE.2, none) ∧
    (∃ w2, Close configuredBE.1 configuredBE.2 = .ret (w2, none)) ∧
    freshStore.DB = none ∧
    Close emptyWorld freshStore = .panic nilPointerDereference :=
  ⟨rfl,
   (Close_reports permissiveEnv emptyWorld createdBE.1 freshStore createdBE.2
     ["BTC", "ETH"]).1 rfl,
   rfl,
   (Close_reports permissiveEnv emptyWorld configuredBE.1 freshStore configuredBE.2
     ["BTC", "ETH"]).2.1 rfl,
   rfl,
   (Close_reports permissiveEnv emptyWorld emptyWorld freshStore freshStore []).2.2 rfl⟩

/-- Witness for C8: when the operating system refuses the file, both methods
return the refusal message itself and only the open was attempted. -/
theorem open_failure_passes_through_witness :
    boltOpen deniedEnv emptyWorld freshStore.DBPath freshStore.Options
      = .ret (deniedWorld, none, some "open db: permission denied") ∧
    freshStore.DB = none ∧
    CreateSchema deniedEnv emptyWorld freshStore ["BTC"]
      = .ret (deniedWorld, { freshStore with DB := none }, some "open db: permission denied") ∧
    Configure deniedEnv emptyWorld freshStore ["BTC"]
      = .ret (deniedWorld, { freshStore with DB := none }, some "open db: permission denied") ∧
    deniedWorld.trace = emptyWorld.trace ++ [Event.boltOpen freshStore.DBPath] ∧
    deniedWorld.files = emptyWorld.files ∧ deniedWorld.handles = emptyWorld.handles :=
  have h := open_failure_passes_through deniedEnv emptyWorld deniedWorld freshStore ["BTC"]
    none "open db: permission denied" rfl
  ⟨rfl, rfl, h.1, h.2.1 rfl, h.2.2⟩

/-- Witness for C9: on the legacy world both opens succeed and `CreateSchema`
with the empty list returns no error with handle and accessor set; the BTC
bucket and its record are as before and no creation call is logged. -/
theorem CreateSchema_empty_witness :
    boltOpen permissiveEnv legacyWorld freshStore.DBPath freshStore.Options
      = .ret (legacyOpened, some 0, none) ∧
    stormOpen permissiveEnv legacyOpened freshStore.DBPath (some 0)
      = .ret (legacyAccessor, some { Bolt := some 0 }, none) ∧
    CreateSchema permissiveEnv legacyWorld freshStore []
      = .ret (legacyAccessor,
          { freshStore with DB := some 0, storm := some { Bolt := some 0 } }, none) ∧
    handlePath legacyAccessor (some 0) = some freshStore.DBPath ∧
    legacyAccessor.trace = legacyWorld.trace
      ++ [Event.boltOpen freshStore.DBPath, Event.stormOpen freshStore.DBPath] ∧
    (∀ name, Event.createBucketIfNotExists name ∈ legacyAccessor.trace →
      Event.createBucketIfNotExists name ∈ legacyWorld.trace) ∧
    (∀ q n, n ≠ dbinfo →
      (partitions legacyAccessor q).lookup n = (partitions legacyWorld q).lookup n) :=
  ⟨rfl, rfl,
   CreateSchema_empty permissiveEnv legacyWorld legacyOpened legacyAccessor freshStore 0
     (some { Bolt := some 0 }) rfl rfl⟩

end Datastore
